import Mathlib

/-!
Shallow embedding of `src/transparency_api.py` (ENTSO-E transparency API
extraction, resolution reconciliation, and cross-source merging).

Timestamps are modelled as `Int` minutes since an arbitrary epoch (the code
works with timezone-aware datetimes whose arithmetic is plain minute
arithmetic; all timestamps produced by the extractor are whole minutes).
Numeric values are modelled as `ℚ`; `pd.to_numeric` on the integer-literal
value strings occurring in these documents is modelled by integer parsing.
-/

namespace Transp

/-- Parse a nonempty all-digit character list as a natural number. -/
def natOfDigits (cs : List Char) : Option Nat :=
  if cs ≠ [] ∧ cs.all Char.isDigit
  then some (cs.foldl (fun n c => n * 10 + (c.toNat - 48)) 0)
  else none

/-- Model of Python `int(...)` on a string: an optional minus sign followed
by digits; anything else raises, modelled as `none`. -/
def intOfStr (s : String) : Option Int :=
  match s.toList with
  | '-' :: cs => (natOfDigits cs).map (fun n => -(n : Int))
  | cs => (natOfDigits cs).map (fun n => (n : Int))

/-- Model of `pd.to_numeric` applied to one value string: integer-literal
strings coerce, anything else raises (modelled as `none`). -/
def toNumeric (s : String) : Option ℚ :=
  (intOfStr s).map (fun n => (n : ℚ))

/-- Model of `int(''.join(filter(str.isdigit, resolution)))`: keep the digits of the
resolution code and parse them; `int('')` raises, modelled as `none`. -/
def resMins (s : String) : Option Nat :=
  natOfDigits (s.toList.filter Char.isDigit)

/-- One `<Point>` node: its `position` text and the text of its value child. -/
structure RawPoint where
  position : String
  value : String
deriving DecidableEq, Repr

/-- The `<Period>` block of one TimeSeries: start timestamp (minutes) and the
resolution code string (e.g. "PT15M", "PT60M"). -/
structure Period where
  start : Int
  resolution : String
deriving DecidableEq, Repr

/-- One `<TimeSeries>` node: its immediate child metadata elements
(tag name, text) other than the Period block, plus the Period and Points. -/
structure TimeSeriesNode where
  children : List (String × String)
  period : Period
  points : List RawPoint
deriving DecidableEq, Repr

/-- One XML response document: an optional in-band `Reason` error
(code, text) and the list of TimeSeries nodes. -/
structure Document where
  reason : Option (String × String)
  series : List TimeSeriesNode
deriving DecidableEq, Repr

/-- Python's `str.strip()`: drop leading and trailing whitespace. -/
def stripStr (s : String) : String :=
  String.mk
    (((s.toList.dropWhile Char.isWhitespace).reverse.dropWhile
      Char.isWhitespace).reverse)

/-- Model of `ts.xpath("string(ns:tag)").strip()`: the text of the first immediate
child with the given tag, stripped; empty string when absent. -/
def xpathString (ts : TimeSeriesNode) (tag : String) : String :=
  stripStr (((ts.children.find? (fun c => c.1 = tag)).map (fun c => c.2)).getD "")

/-- The candidate metadata tags collected across all series: every immediate
child tag except the structural tags `mRID` and `Period` (a set; modelled as
a duplicate-free list in first-occurrence order). -/
def allTags (nodes : List TimeSeriesNode) : List String :=
  ((nodes.map (fun ts => ts.children.map (fun c => c.1))).flatten.filter
    (fun t => t ≠ "mRID" ∧ t ≠ "Period")).dedup

/-- Lines 75-87: the varying-metadata tags. Empty when at most one series;
otherwise every candidate tag whose stripped string value is not the same
across all series. -/
def differingElements (nodes : List TimeSeriesNode) : List String :=
  if 1 < nodes.length then
    (allTags nodes).filter
      (fun tag => 1 < ((nodes.map (fun ts => xpathString ts tag)).dedup).length)
  else []

/-- One row of the per-series dataframe before numeric coercion: timestamp,
value text, resolution code, and the metadata columns (varying tags followed
by required and optional parameters, as (column, value) pairs). -/
structure RawRow where
  date : Int
  valueStr : String
  resolution : String
  tags : List (String × String)
deriving DecidableEq, Repr

/-- One row after numeric coercion of the value column. -/
structure Row where
  date : Int
  value : ℚ
  resolution : String
  tags : List (String × String)
deriving DecidableEq, Repr

/-- Apply a fallible function to every element, failing the whole list when
any element fails (the model of an exception escaping a comprehension or a
whole-column coercion). -/
def mapOrFail (f : α → Option β) : List α → Option (List β)
  | [] => some []
  | a :: l =>
    match f a, mapOrFail f l with
    | some b, some bs => some (b :: bs)
    | _, _ => none

/-- Lines 96-122 for one series: parse the resolution into minutes, parse
each point's position, and emit one row per point with
`date = start + (position - 1) * res_mins` and the metadata columns. -/
def seriesRows (diff : List String) (reqParams optParams : List (String × String))
    (ts : TimeSeriesNode) : Option (List RawRow) :=
  (resMins ts.period.resolution).bind (fun m =>
    mapOrFail (fun pt =>
      (intOfStr pt.position).map (fun p =>
        { date := ts.period.start + (p - 1) * (m : Int)
          valueStr := pt.value
          resolution := ts.period.resolution
          tags := diff.map (fun t => (t, xpathString ts t)) ++ reqParams ++ optParams }))
      ts.points)

/-- Lines 95-124: the concatenated raw dataframe over all series. -/
def buildRawRows (doc : Document) (diff : List String)
    (reqParams optParams : List (String × String)) : Option (List RawRow) :=
  (mapOrFail (seriesRows diff reqParams optParams) doc.series).map List.flatten

/-- Line 125: `pd.to_numeric` over the whole value column; any failure
raises for the whole document. -/
def coerceRows (raws : List RawRow) : Option (List Row) :=
  mapOrFail (fun rr =>
    (toNumeric rr.valueStr).map (fun q =>
      { date := rr.date, value := q, resolution := rr.resolution, tags := rr.tags }))
    raws

/-- Floor an Int timestamp (minutes) to its hour (`pd.Grouper(freq='1h')`). -/
def hourFloor (t : Int) : Int := t - t % 60

/-- The distinct group keys of the 15-minute hourly aggregation:
(metadata columns, hour-floored timestamp), in first-occurrence order. -/
def keysOf (rows : List Row) : List (List (String × String) × Int) :=
  (rows.map (fun r => (r.tags, hourFloor r.date))).dedup

/-- Lines 134-146: bucket the 15-minute rows by metadata columns and
hour-floor of timestamp, sum values within each bucket, and tag the result
`PT60M_aggregated`. -/
def aggregate15 (rows : List Row) : List Row :=
  (keysOf rows).map (fun k =>
    { date := k.2
      value := ((rows.filter (fun r => r.tags = k.1 ∧ hourFloor r.date = k.2)).map
        (fun r => r.value)).sum
      resolution := "PT60M_aggregated"
      tags := k.1 })

/-- The sort key of line 163 (`sort_values(by=['date','priority'])`) as a
relation on (row, priority) pairs. -/
def rowLe (a b : Row × Nat) : Prop :=
  a.1.date < b.1.date ∨ (a.1.date = b.1.date ∧ a.2 ≤ b.2)

instance : DecidableRel rowLe := fun a b => by
  unfold rowLe; infer_instance

instance : IsTotal (Row × Nat) rowLe := by
  constructor; intro a b; unfold rowLe; omega

instance : IsTrans (Row × Nat) rowLe := by
  constructor; intro a b c; unfold rowLe; omega

/-- Model of `drop_duplicates(subset=key, keep='first')`: keep each row whose key has
not been seen before it. -/
def dedupBy {K : Type} [DecidableEq K] (key : α → K) : List α → List K → List α
  | [], _ => []
  | a :: l, seen =>
    if key a ∈ seen then dedupBy key l seen
    else a :: dedupBy key l (key a :: seen)

/-- Lines 154-165: assign priority 1 to the native-60 rows and 2 to the
aggregated rows, concatenate, sort by `['date', 'priority']`, and drop
duplicate `(date, metadata)` keys keeping the first row. -/
def mergeNative (df60 df15h : List Row) : List Row :=
  let combined := df60.map (fun r => (r, 1)) ++ df15h.map (fun r => (r, 2))
  let sorted := List.insertionSort rowLe combined
  (dedupBy (fun rp => (rp.1.date, rp.1.tags)) sorted []).map (fun rp => rp.1)

/-- Lines 127-174: split by resolution, aggregate the 15-minute rows to
hourly buckets, merge with native-60 rows by (date, metadata) with native
priority, and keep only exact hours. -/
def reconcile (rows : List Row) : List Row :=
  let df15 := rows.filter (fun r => r.resolution = "PT15M")
  let df60 := rows.filter (fun r => r.resolution = "PT60M")
  let df15h := if df15.isEmpty then [] else aggregate15 df15
  let finalDf := if df15h.isEmpty then df60 else mergeNative df60 df15h
  finalDf.filter (fun r => r.date % 60 = 0)

/-- The observable outcome of `get_transp_api`: the in-band API error print
(lines 56-60), the no-data print (lines 62-65), the generic exception print
(lines 178-180), or the final dataframe. -/
inductive Outcome where
  | apiError (code text : String)
  | noData
  | failure
  | table (rows : List Row)
deriving DecidableEq, Repr

/-- Lines 29-180: the whole extraction and reconciliation for one parsed
document (HTTP fetch and XML parsing are outside the model; the document
structure is the parsed tree). -/
def get_transp_api (reqParams optParams : List (String × String))
    (doc : Document) : Outcome :=
  match doc.reason with
  | some (c, t) => .apiError c t
  | none =>
    if doc.series.isEmpty then .noData
    else
      let diff := differingElements doc.series
      match buildRawRows doc diff reqParams optParams with
      | none => .failure
      | some raws =>
        match coerceRows raws with
        | none => .failure
        | some rows => .table (reconcile rows)

/-- One row of the canonical long form `(date, value, description)`. -/
structure LongRow where
  date : Int
  value : ℚ
  description : String
deriving DecidableEq, Repr

/-- Modelled from the spec: `all_dics` lives in the repository's `utils`
module, which is not under `src/`; per the spec it is a static configuration
mapping (metadata field name → (code → label)), passed here as a parameter.
Lines 206-208: translate a metadata value through its field's lookup when one
exists, leaving unknown codes and unlisted fields unchanged. -/
def translate (dics : List (String × List (String × String))) (col v : String) : String :=
  match dics.find? (fun d => d.1 = col) with
  | none => v
  | some (_, dic) =>
    match dic.find? (fun e => e.1 = v) with
    | none => v
    | some (_, lbl) => lbl

/-- Lines 206-208 applied to one row: translate every metadata column value
through its column's lookup. -/
def translateRow (dics : List (String × List (String × String))) (r : Row) : Row :=
  { r with tags := r.tags.map (fun c => (c.1, translate dics c.1 c.2)) }

/-- The metadata column names of one source dataframe: the columns after
date, value and resolution, read off the first row (all rows of one source
share the same columns). -/
def tagCols (df : List Row) : List String :=
  ((df.head?.map (fun r => r.tags.map (fun c => c.1))).getD [])

/-- Lines 202-224 for one source dataframe: translate coded metadata values,
build the description column (all metadata columns except resolution, plus
resolution only when the source holds more than one distinct resolution
value, or the literal "Value" when that column list is empty), and reduce
each row to (date, value, description). -/
def processOne (dics : List (String × List (String × String)))
    (df : List Row) : List LongRow :=
  let temp := df.map (translateRow dics)
  let metaCols := tagCols temp
  let metaCols :=
    if 1 < ((temp.map (fun r => r.resolution)).dedup).length
    then metaCols ++ ["resolution"] else metaCols
  temp.map (fun r =>
    { date := r.date
      value := r.value
      description :=
        if metaCols.isEmpty then "Value"
        else
          String.intercalate " - " (metaCols.map (fun c =>
            if c = "resolution" then r.resolution
            else (((r.tags.find? (fun e => e.1 = c)).map (fun e => e.2)).getD ""))) })

/-- Line 235: `pivot_table(index='date', columns='description',
values='value', aggfunc='first')` followed by `sort_index`. One output row
per distinct date in ascending order; one column per distinct description;
each cell the first value encountered for that (date, description), absent
cells null. -/
def pivotFirst (rows : List LongRow) : List (Int × List (String × Option ℚ)) :=
  let cols := List.insertionSort (fun a b => a ≤ b) ((rows.map (fun r => r.description)).dedup)
  let dates := List.insertionSort (fun a b => a ≤ b) ((rows.map (fun r => r.date)).dedup)
  dates.map (fun d =>
    (d, cols.map (fun c =>
      (c, (rows.find? (fun r => r.date = d ∧ r.description = c)).map (fun r => r.value)))))

/-- Lines 183-237: the cross-source merger. Sources that are absent (`None`)
or empty are skipped; when nothing remains an empty table is returned.
Otherwise the long forms are concatenated, dates are converted to local time
by `tzConvert` (modelling `tz_convert('Europe/Paris')` + `tz_localize(None)`
as an explicit timestamp map), and the result is pivoted to wide form. -/
def process (dics : List (String × List (String × String))) (tzConvert : Int → Int)
    (dfList : List (Option (List Row))) : List (Int × List (String × Option ℚ)) :=
  let unified := dfList.filterMap (fun odf =>
    match odf with
    | none => none
    | some df => if df.isEmpty then none else some (processOne dics df))
  if unified.isEmpty then []
  else
    pivotFirst ((unified.flatten).map (fun lr => { lr with date := tzConvert lr.date }))

/-! ### Concrete documents and sources used by witnesses and counterexamples -/

/-- Witness for C1 at a concrete input: one native-60 row (value 10) and four
15-minute rows (value 2 each) at hour 0 for the same metadata. -/
def w1rows : List Row :=
  [ { date := 0, value := 10, resolution := "PT60M",
      tags := [("documentType", "A69")] }
  , { date := 0, value := 2, resolution := "PT15M",
      tags := [("documentType", "A69")] }
  , { date := 15, value := 2, resolution := "PT15M",
      tags := [("documentType", "A69")] }
  , { date := 30, value := 2, resolution := "PT15M",
      tags := [("documentType", "A69")] }
  , { date := 45, value := 2, resolution := "PT15M",
      tags := [("documentType", "A69")] } ]

/-- Witness node for C3: psrType B16. -/
def w3a : TimeSeriesNode :=
  { children := [("psrType", "B16")]
    period := { start := 0, resolution := "PT60M" }, points := [] }

/-- Witness node for C3: psrType B19. -/
def w3b : TimeSeriesNode :=
  { children := [("psrType", "B19")]
    period := { start := 0, resolution := "PT60M" }, points := [] }

/-- Witness series for C4: two hourly points at positions 1 and 2. -/
def w4ts : TimeSeriesNode :=
  { children := []
    period := { start := 120, resolution := "PT60M" }
    points := [{ position := "1", value := "10" }, { position := "2", value := "20" }] }

/-- Witness document for C5: Reason code 999 and no series nodes. -/
def doc999 : Document :=
  { reason := some ("999", "No matching data found"), series := [] }

/-- Document for C6: two sibling series, the second with a value that fails
numeric coercion. -/
def docBadValue : Document :=
  { reason := none
    series :=
      [ { children := [("psrType", "B16")]
          period := { start := 0, resolution := "PT60M" }
          points := [{ position := "1", value := "5" }] }
      , { children := [("psrType", "B19")]
          period := { start := 0, resolution := "PT60M" }
          points := [{ position := "1", value := "abc" }] } ] }

/-- The sibling document for C6: only the well-formed series. -/
def docGoodValue : Document :=
  { reason := none
    series :=
      [ { children := [("psrType", "B16")]
          period := { start := 0, resolution := "PT60M" }
          points := [{ position := "1", value := "5" }] } ] }

/-- Document for C7: two 60-minute series (differing psrType) covering the
same two hours; no 15-minute data. -/
def doc60x2 : Document :=
  { reason := none
    series :=
      [ { children := [("psrType", "B16")]
          period := { start := 0, resolution := "PT60M" }
          points := [{ position := "1", value := "1" }, { position := "2", value := "2" }] }
      , { children := [("psrType", "B19")]
          period := { start := 0, resolution := "PT60M" }
          points := [{ position := "1", value := "3" }, { position := "2", value := "4" }] } ] }

/-- Witness source for C8: one metadata column, one resolution value. -/
def w8df : List Row :=
  [ { date := 0, value := 5, resolution := "PT60M", tags := [("psrType", "B16")] }
  , { date := 60, value := 7, resolution := "PT60M", tags := [("psrType", "B16")] } ]

/-- Witness rows for C9, containing a PT30M row. -/
def w9rows : List Row :=
  [ { date := 0, value := 3, resolution := "PT30M", tags := [] }
  , { date := 0, value := 5, resolution := "PT60M", tags := [] } ]

/-! ### Helper lemmas -/

theorem mapOrFail_length_get {f : α → Option β} :
    ∀ {l : List α} {bs : List β}, mapOrFail f l = some bs →
      bs.length = l.length ∧
        ∀ i (h1 : i < l.length) (h2 : i < bs.length),
          f (l.get ⟨i, h1⟩) = some (bs.get ⟨i, h2⟩) := by
  intro l
  induction l with
  | nil =>
    intro bs h
    simp [mapOrFail] at h
    subst h
    exact ⟨rfl, fun i h1 _ => absurd h1 (Nat.not_lt_zero i)⟩
  | cons a t ih =>
    intro bs h
    simp only [mapOrFail] at h
    cases hfa : f a with
    | none => rw [hfa] at h; exact absurd h (by simp)
    | some b =>
      rw [hfa] at h
      cases hft : mapOrFail f t with
      | none => rw [hft] at h; exact absurd h (by simp)
      | some bt =>
        rw [hft] at h
        simp only [Option.some.injEq] at h
        subst h
        obtain ⟨hlen, hget⟩ := ih hft
        refine ⟨by simp [hlen], ?_⟩
        intro i h1 h2
        cases i with
        | zero => simpa using hfa
        | succ j =>
          simp only [List.get_cons_succ]
          exact hget j (by simpa using h1) (by simpa using h2)

theorem mapOrFail_mem {f : α → Option β} :
    ∀ {l : List α} {bs : List β}, mapOrFail f l = some bs →
      ∀ a ∈ l, ∃ b ∈ bs, f a = some b := by
  intro l
  induction l with
  | nil => intro bs _ a ha; exact absurd ha (List.not_mem_nil a)
  | cons x t ih =>
    intro bs h a ha
    simp only [mapOrFail] at h
    cases hfx : f x with
    | none => rw [hfx] at h; exact absurd h (by simp)
    | some b =>
      rw [hfx] at h
      cases hft : mapOrFail f t with
      | none => rw [hft] at h; exact absurd h (by simp)
      | some bt =>
        rw [hft] at h
        simp only [Option.some.injEq] at h
        subst h
        rcases List.mem_cons.mp ha with rfl | hat
        · exact ⟨b, List.mem_cons_self b bt, hfx⟩
        · obtain ⟨b', hb', hfb'⟩ := ih hft a hat
          exact ⟨b', List.mem_cons_of_mem b hb', hfb'⟩

theorem mapOrFail_eq_none {f : α → Option β} :
    ∀ {l : List α}, (∃ a ∈ l, f a = none) → mapOrFail f l = none := by
  intro l
  induction l with
  | nil => rintro ⟨a, ha, -⟩; exact absurd ha (List.not_mem_nil a)
  | cons x t ih =>
    rintro ⟨a, ha, hfa⟩
    simp only [mapOrFail]
    rcases List.mem_cons.mp ha with rfl | hat
    · rw [hfa]
    · rw [ih ⟨a, hat, hfa⟩]
      cases f x <;> rfl

theorem dedupBy_sublist {K : Type} [DecidableEq K] (key : α → K) :
    ∀ (l : List α) (seen : List K), (dedupBy key l seen).Sublist l := by
  intro l
  induction l with
  | nil => intro seen; simp [dedupBy]
  | cons a t ih =>
    intro seen
    simp only [dedupBy]
    by_cases h : key a ∈ seen
    · simp only [h, if_true]
      exact (ih seen).cons a
    · simp only [h, if_false]
      exact (ih (key a :: seen)).cons₂ a

theorem dedupBy_find? {K : Type} [DecidableEq K] (key : α → K) (k : K) :
    ∀ (l : List α) (seen : List K) (x : α),
      x ∈ dedupBy key l seen → key x = k →
        k ∉ seen ∧ l.find? (fun z => key z = k) = some x := by
  intro l
  induction l with
  | nil => intro seen x hx; exact absurd hx (by simp [dedupBy])
  | cons a t ih =>
    intro seen x hx hk
    simp only [dedupBy] at hx
    by_cases ha : key a ∈ seen
    · simp only [ha, if_true] at hx
      obtain ⟨hns, hfind⟩ := ih seen x hx hk
      have hak : key a ≠ k := fun h => hns (h ▸ ha)
      refine ⟨hns, ?_⟩
      rw [List.find?_cons_of_neg _ (by simpa using hak)]
      exact hfind
    · simp only [ha, if_false] at hx
      rcases List.mem_cons.mp hx with rfl | hxt
      · exact ⟨hk ▸ ha, by rw [List.find?_cons_of_pos _ (by simpa using hk)]⟩
      · obtain ⟨hns, hfind⟩ := ih (key a :: seen) x hxt hk
        have hak : key a ≠ k := fun h => hns (by simp [h])
        refine ⟨fun h => hns (List.mem_cons_of_mem _ h), ?_⟩
        rw [List.find?_cons_of_neg _ (by simpa using hak)]
        exact hfind

theorem dedupBy_exists {K : Type} [DecidableEq K] (key : α → K) :
    ∀ (l : List α) (seen : List K) (y : α),
      y ∈ l → key y ∉ seen →
        ∃ x ∈ dedupBy key l seen, key x = key y := by
  intro l
  induction l with
  | nil => intro seen y hy; exact absurd hy (List.not_mem_nil y)
  | cons a t ih =>
    intro seen y hy hns
    simp only [dedupBy]
    by_cases ha : key a ∈ seen
    · simp only [ha, if_true]
      rcases List.mem_cons.mp hy with rfl | hyt
      · exact absurd ha hns
      · exact ih seen y hyt hns
    · simp only [ha, if_false]
      by_cases hk : key y = key a
      · exact ⟨a, List.mem_cons_self _ _, hk.symm⟩
      · rcases List.mem_cons.mp hy with rfl | hyt
        · exact absurd rfl hk
        · obtain ⟨x, hx, hkx⟩ := ih (key a :: seen) y hyt (by
            simp only [List.mem_cons, not_or]
            exact ⟨hk, hns⟩)
          exact ⟨x, List.mem_cons_of_mem a hx, hkx⟩

/-- In a list sorted by `(date, priority)`, if some element with the given
(date, tags) key has priority 1 and all priorities are at least 1, then the
first element found at that key has priority 1. -/
theorem find?_priority_one :
    ∀ (l : List (Row × Nat)), l.Pairwise rowLe →
      ∀ (k : Int × List (String × String)) (y : Row × Nat),
        y ∈ l → (y.1.date, y.1.tags) = k → y.2 = 1 →
        (∀ z ∈ l, 1 ≤ z.2) →
        ∀ x, l.find? (fun z => (z.1.date, z.1.tags) = k) = some x → x.2 = 1 := by
  intro l
  induction l with
  | nil => intro _ k y hy; exact absurd hy (List.not_mem_nil y)
  | cons a t ih =>
    intro hp k y hy hky hy1 hall x hx
    rcases List.pairwise_cons.mp hp with ⟨hrel, hpt⟩
    by_cases hak : (a.1.date, a.1.tags) = k
    · rw [List.find?_cons_of_pos _ (by simpa using hak)] at hx
      have hxa : x = a := by simpa using hx.symm
      subst hxa
      rcases List.mem_cons.mp hy with rfl | hyt
      · exact hy1
      · have hle := hrel y hyt
        have hdates : x.1.date = y.1.date := by
          have h1 : x.1.date = k.1 := by rw [← hak]
          have h2 : y.1.date = k.1 := by rw [← hky]
          rw [h1, h2]
        rcases hle with hlt | ⟨-, hle2⟩
        · exact absurd hlt (by rw [hdates]; exact lt_irrefl _)
        · have := hall x (List.mem_cons_self _ _)
          omega
    · rw [List.find?_cons_of_neg _ (by simpa using hak)] at hx
      rcases List.mem_cons.mp hy with rfl | hyt
      · exact absurd hky hak
      · exact ih hpt k y hyt hky hy1 (fun z hz => hall z (List.mem_cons_of_mem a hz)) x hx

/-- Two distinct members force a deduplicated length above one. -/
theorem one_lt_dedup_length [DecidableEq α] {l : List α} {a b : α}
    (ha : a ∈ l) (hb : b ∈ l) (hab : a ≠ b) : 1 < l.dedup.length := by
  have ha' : a ∈ l.dedup := List.mem_dedup.mpr ha
  have hb' : b ∈ l.dedup := List.mem_dedup.mpr hb
  match hd : l.dedup with
  | [] => rw [hd] at ha'; exact absurd ha' (List.not_mem_nil a)
  | [x] =>
    rw [hd] at ha' hb'
    simp only [List.mem_singleton] at ha' hb'
    exact absurd (ha'.trans hb'.symm) hab
  | x :: y :: rest => simp

/-- A list whose members are all equal deduplicates to length at most one. -/
theorem dedup_length_le_one [DecidableEq α] {l : List α}
    (h : ∀ x ∈ l, ∀ y ∈ l, x = y) : l.dedup.length ≤ 1 := by
  match hd : l.dedup with
  | [] => simp
  | [x] => simp
  | x :: y :: rest =>
    have hnd : (x :: y :: rest).Nodup := hd ▸ l.nodup_dedup
    have hx : x ∈ l := List.mem_dedup.mp (hd ▸ List.mem_cons_self x (y :: rest))
    have hy : y ∈ l := List.mem_dedup.mp
      (hd ▸ List.mem_cons_of_mem x (List.mem_cons_self y rest))
    have : x ≠ y := by
      intro hxy
      exact (List.nodup_cons.mp hnd).1 (hxy ▸ List.mem_cons_self y rest)
    exact absurd (h x hx y hy) this

/-- Filtering a duplicate-free list with a predicate that holds exactly at
`F` yields `[F]` when `F` is in the list. -/
theorem filter_eq_singleton [DecidableEq α] {p : α → Bool} {F : α} :
    ∀ {l : List α}, l.Nodup → F ∈ l → (∀ x ∈ l, p x = true ↔ x = F) →
      l.filter p = [F] := by
  intro l
  induction l with
  | nil => intro _ hF; exact absurd hF (List.not_mem_nil F)
  | cons a t ih =>
    intro hnd hF hiff
    rcases List.mem_cons.mp hF with rfl | hFt
    · rw [List.filter_cons_of_pos ((hiff F (List.mem_cons_self _ _)).mpr rfl)]
      have ht : t.filter p = [] := by
        apply List.filter_eq_nil_iff.mpr
        intro x hx
        intro hpx
        have := (hiff x (List.mem_cons_of_mem F hx)).mp hpx
        subst this
        exact (List.nodup_cons.mp hnd).1 hx
      rw [ht]
    · have haF : a ≠ F := by
        intro h
        exact (List.nodup_cons.mp hnd).1 (h ▸ hFt)
      rw [List.filter_cons_of_neg (by
        intro hpa
        exact haF ((hiff a (List.mem_cons_self _ _)).mp hpa))]
      exact ih (List.nodup_cons.mp hnd).2 hFt
        (fun x hx => hiff x (List.mem_cons_of_mem a hx))

/-- The central priority property of the merge of lines 154-165: when a
native-60 row exists for a `(date, tags)` key, the merged output contains a
native row for that key, and every merged row at that key comes from the
native side. -/
theorem mergeNative_native_priority (df60 df15h : List Row) (d : Int)
    (g : List (String × String)) (rn : Row)
    (hrn : rn ∈ df60) (hd : rn.date = d) (hg : rn.tags = g) :
    (∃ r ∈ mergeNative df60 df15h, r.date = d ∧ r.tags = g ∧ r ∈ df60) ∧
    (∀ r ∈ mergeNative df60 df15h, r.date = d → r.tags = g → r ∈ df60) := by
  simp only [mergeNative]
  set keyf : Row × Nat → Int × List (String × String) :=
    fun rp => (rp.1.date, rp.1.tags) with hkeyf
  set combined : List (Row × Nat) :=
    df60.map (fun r => (r, 1)) ++ df15h.map (fun r => (r, 2)) with hcomb
  set sorted := List.insertionSort rowLe combined with hsorted
  have hperm : List.Perm sorted combined := List.perm_insertionSort rowLe combined
  have hpair : sorted.Pairwise rowLe := List.sorted_insertionSort rowLe combined
  have hy : (rn, 1) ∈ sorted := by
    apply hperm.mem_iff.mpr
    rw [hcomb]
    exact List.mem_append_left _ (List.mem_map.mpr ⟨rn, hrn, rfl⟩)
  have hall : ∀ z ∈ sorted, 1 ≤ z.2 := by
    intro z hz
    rcases List.mem_append.mp (hperm.subset hz) with hz1 | hz2
    · obtain ⟨r, -, hr⟩ := List.mem_map.mp hz1
      rw [← hr]
    · obtain ⟨r, -, hr⟩ := List.mem_map.mp hz2
      rw [← hr]
      omega
  obtain ⟨x, hxdedup, hxkey⟩ := dedupBy_exists keyf sorted [] (rn, 1) hy (by simp)
  have hxk : keyf x = (d, g) := by rw [hxkey, hkeyf]; simp [hd, hg]
  have hfind := (dedupBy_find? keyf (d, g) sorted [] x hxdedup hxk).2
  have hx1 : x.2 = 1 :=
    find?_priority_one sorted hpair (d, g) (rn, 1) hy (by simp [hd, hg]) rfl hall x hfind
  have hx60 : x.1 ∈ df60 := by
    have hxs : x ∈ sorted := (dedupBy_sublist keyf sorted []).mem hxdedup
    rcases List.mem_append.mp (hperm.subset hxs) with hz1 | hz2
    · obtain ⟨r, hr, hre⟩ := List.mem_map.mp hz1
      rw [← hre]
      exact hr
    · obtain ⟨r, -, hre⟩ := List.mem_map.mp hz2
      rw [← hre] at hx1
      exact absurd hx1 (by simp)
  constructor
  · refine ⟨x.1, List.mem_map.mpr ⟨x, hxdedup, rfl⟩, ?_, ?_, hx60⟩
    · have : (x.1.date, x.1.tags) = (d, g) := hxk
      exact (Prod.mk.injEq _ _ _ _ ▸ this).1
    · have : (x.1.date, x.1.tags) = (d, g) := hxk
      exact (Prod.mk.injEq _ _ _ _ ▸ this).2
  · intro r hr hrd hrg
    obtain ⟨x', hx'dedup, hx'e⟩ := List.mem_map.mp hr
    have hx'k : keyf x' = (d, g) := by rw [hkeyf]; simp [hx'e, hrd, hrg]
    have hfind' := (dedupBy_find? keyf (d, g) sorted [] x' hx'dedup hx'k).2
    have hxx : x' = x := by
      rw [hfind] at hfind'
      exact (Option.some.inj hfind').symm
    rw [← hx'e, hxx]
    exact hx60

/-- The hourly aggregation of a nonempty list is nonempty. -/
theorem aggregate15_ne_nil {rows : List Row} (h : rows ≠ []) : aggregate15 rows ≠ [] := by
  simp only [aggregate15, keysOf]
  intro hc
  rcases List.map_eq_nil_iff.mp hc with hkeys
  have := List.dedup_eq_nil _ |>.mp hkeys
  exact h (List.map_eq_nil_iff.mp this)

/-- The function `reconcile` either passes the native rows through (no 15-minute data) or
runs the priority merge against the nonempty hourly aggregation. -/
theorem reconcile_cases (rows : List Row) :
    ((rows.filter (fun r => r.resolution = "PT15M")) = [] ∧
      reconcile rows =
        (rows.filter (fun r => r.resolution = "PT60M")).filter
          (fun r => r.date % 60 = 0)) ∨
    ((rows.filter (fun r => r.resolution = "PT15M")) ≠ [] ∧
      reconcile rows =
        (mergeNative (rows.filter (fun r => r.resolution = "PT60M"))
            (aggregate15 (rows.filter (fun r => r.resolution = "PT15M")))).filter
          (fun r => r.date % 60 = 0)) := by
  simp only [reconcile]
  by_cases h15 : (rows.filter (fun r => r.resolution = "PT15M")).isEmpty
  · left
    refine ⟨List.isEmpty_iff.mp h15, ?_⟩
    simp [h15]
  · right
    have hne : rows.filter (fun r => r.resolution = "PT15M") ≠ [] := by
      simpa [List.isEmpty_iff] using h15
    refine ⟨hne, ?_⟩
    have hagg := aggregate15_ne_nil hne
    simp [h15, List.isEmpty_iff, hagg]

/-! ### Claim theorems -/

/-- C1: In every reconciled output, whenever a 60-minute-native row exists
for a given timestamp (on an hour boundary) and grouping keys, the reconciler
retains a native-60 row for that key — one of the input native rows — and no
aggregated-from-15 row for that key survives. -/
theorem claim1_native_priority (rows : List Row) (d : Int)
    (g : List (String × String))
    (hd : d % 60 = 0)
    (hnat : ∃ r ∈ rows, r.resolution = "PT60M" ∧ r.date = d ∧ r.tags = g) :
    (∃ r ∈ reconcile rows, r ∈ rows ∧ r.date = d ∧ r.tags = g ∧
      r.resolution = "PT60M") ∧
    (∀ r ∈ reconcile rows, r.date = d → r.tags = g →
      r.resolution ≠ "PT60M_aggregated") := by
  obtain ⟨rn, hrn, hres, hdate, htags⟩ := hnat
  have hrn60 : rn ∈ rows.filter (fun r => r.resolution = "PT60M") :=
    List.mem_filter.mpr ⟨hrn, by simp [hres]⟩
  have h60mem : ∀ r ∈ rows.filter (fun r => r.resolution = "PT60M"),
      r ∈ rows ∧ r.resolution = "PT60M" := by
    intro r hr
    have h := List.mem_filter.mp hr
    exact ⟨h.1, by simpa using h.2⟩
  rcases reconcile_cases rows with ⟨-, hcase⟩ | ⟨-, hcase⟩
  · rw [hcase]
    constructor
    · refine ⟨rn, List.mem_filter.mpr ⟨hrn60, by simp [hdate, hd]⟩,
        hrn, hdate, htags, hres⟩
    · intro r hr _ _
      have := (h60mem r (List.mem_filter.mp hr).1).2
      rw [this]
      simp
  · rw [hcase]
    obtain ⟨⟨x, hx, hxd, hxg, hx60⟩, hforall⟩ :=
      mergeNative_native_priority
        (rows.filter (fun r => r.resolution = "PT60M"))
        (aggregate15 (rows.filter (fun r => r.resolution = "PT15M")))
        d g rn hrn60 hdate htags
    constructor
    · refine ⟨x, List.mem_filter.mpr ⟨hx, by simp [hxd, hd]⟩,
        (h60mem x hx60).1, hxd, hxg, (h60mem x hx60).2⟩
    · intro r hr hrd hrg
      have hrm : r ∈ mergeNative _ _ := (List.mem_filter.mp hr).1
      have := (h60mem r (hforall r hrm hrd hrg)).2
      rw [this]
      simp

theorem claim1_witness :
    (∃ r ∈ reconcile w1rows, r ∈ w1rows ∧ r.date = 0 ∧
      r.tags = [("documentType", "A69")] ∧ r.resolution = "PT60M") ∧
    (∀ r ∈ reconcile w1rows, r.date = 0 → r.tags = [("documentType", "A69")] →
      r.resolution ≠ "PT60M_aggregated") :=
  claim1_native_priority w1rows 0 [("documentType", "A69")] (by decide)
    ⟨w1rows.head (by decide), by decide, by decide, by decide, by decide⟩

/-- C2: four consecutive 15-minute samples of equal value `v` covering one
hour, with no native-60 row present, reconcile to the single hourly row with
value `4v` tagged as aggregated. -/
theorem claim2_fifteen_minute_sum (t : Int) (v : ℚ) (g : List (String × String))
    (ht : t % 60 = 0) :
    reconcile
      [ { date := t, value := v, resolution := "PT15M", tags := g }
      , { date := t + 15, value := v, resolution := "PT15M", tags := g }
      , { date := t + 30, value := v, resolution := "PT15M", tags := g }
      , { date := t + 45, value := v, resolution := "PT15M", tags := g } ] =
      [ { date := t, value := 4 * v, resolution := "PT60M_aggregated",
          tags := g } ] := by
  have hf0 : hourFloor t = t := by unfold hourFloor; omega
  have hf15 : hourFloor (t + 15) = t := by unfold hourFloor; omega
  have hf30 : hourFloor (t + 30) = t := by unfold hourFloor; omega
  have hf45 : hourFloor (t + 45) = t := by unfold hourFloor; omega
  simp [reconcile, aggregate15, keysOf, mergeNative, dedupBy, hf0, hf15, hf30,
    hf45, List.insertionSort, List.orderedInsert, ht,
    Int.dvd_of_emod_eq_zero ht, List.filter]
  ring

theorem claim2_witness :
    (0 : Int) % 60 = 0 ∧
    reconcile
      [ { date := 0, value := 2, resolution := "PT15M", tags := [("documentType", "A69")] }
      , { date := 0 + 15, value := 2, resolution := "PT15M", tags := [("documentType", "A69")] }
      , { date := 0 + 30, value := 2, resolution := "PT15M", tags := [("documentType", "A69")] }
      , { date := 0 + 45, value := 2, resolution := "PT15M", tags := [("documentType", "A69")] } ] =
      [ { date := 0, value := 4 * 2, resolution := "PT60M_aggregated",
          tags := [("documentType", "A69")] } ] :=
  ⟨by decide, claim2_fifteen_minute_sum 0 2 [("documentType", "A69")] (by decide)⟩

/-- C3: a single-series document discovers no varying metadata; with more
than one series all of whose metadata tags agree except exactly one field F
(a candidate metadata tag, i.e. not the identifier or period block), the
discovered varying set is exactly `[F]`. -/
theorem claim3_varying_metadata :
    (∀ ts : TimeSeriesNode, differingElements [ts] = []) ∧
    (∀ (nodes : List TimeSeriesNode) (F : String),
      1 < nodes.length → F ∈ allTags nodes →
      (∀ t, t ≠ F → ∀ a ∈ nodes, ∀ b ∈ nodes, xpathString a t = xpathString b t) →
      (∃ a ∈ nodes, ∃ b ∈ nodes, xpathString a F ≠ xpathString b F) →
      differingElements nodes = [F]) := by
  constructor
  · intro ts
    simp [differingElements]
  · intro nodes F hlen hF hagree hdiff
    simp only [differingElements, hlen, if_true]
    apply filter_eq_singleton (List.nodup_dedup _) hF
    intro x hx
    constructor
    · intro hpx
      by_contra hxF
      have hall : ∀ u ∈ nodes.map (fun ts => xpathString ts x),
          ∀ w ∈ nodes.map (fun ts => xpathString ts x), u = w := by
        intro u hu w hw
        obtain ⟨a, ha, rfl⟩ := List.mem_map.mp hu
        obtain ⟨b, hb, rfl⟩ := List.mem_map.mp hw
        exact hagree x hxF a ha b hb
      have hle := dedup_length_le_one hall
      have := of_decide_eq_true hpx
      omega
    · intro hxF
      subst hxF
      obtain ⟨a, ha, b, hb, hne⟩ := hdiff
      have h1 : xpathString a x ∈ nodes.map (fun ts => xpathString ts x) :=
        List.mem_map.mpr ⟨a, ha, rfl⟩
      have h2 : xpathString b x ∈ nodes.map (fun ts => xpathString ts x) :=
        List.mem_map.mpr ⟨b, hb, rfl⟩
      exact decide_eq_true (one_lt_dedup_length h1 h2 hne)

theorem claim3_witness :
    differingElements [w3a, w3b] = ["psrType"] :=
  claim3_varying_metadata.2 [w3a, w3b] "psrType" (by decide) (by decide)
    (by
      intro t ht a ha b hb
      have hx : ∀ c ∈ [w3a, w3b], xpathString c t = "" := by
        intro c hc
        have hne : ("psrType" = t) = False := eq_false (fun h => ht h.symm)
        rcases List.mem_cons.mp hc with rfl | hc2
        · simp [xpathString, w3a, List.find?, hne]
          rfl
        · rcases List.mem_cons.mp hc2 with rfl | hc3
          · simp [xpathString, w3b, List.find?, hne]
            rfl
          · exact absurd hc3 (List.not_mem_nil c)
      rw [hx a ha, hx b hb])
    (by decide)

/-- C4: when extraction of a series succeeds, it produced one row per point,
and the row for the point at index i has timestamp
`start + (position - 1) * resolution_minutes`, where `position` is the
integer parsed from that point's position text. -/
theorem claim4_position_timestamps (diff : List String)
    (req opt : List (String × String)) (ts : TimeSeriesNode)
    (rows : List RawRow) (h : seriesRows diff req opt ts = some rows) :
    ∃ m, resMins ts.period.resolution = some m ∧
      rows.length = ts.points.length ∧
      ∀ i (h1 : i < ts.points.length) (h2 : i < rows.length),
        ∃ p, intOfStr (ts.points.get ⟨i, h1⟩).position = some p ∧
          (rows.get ⟨i, h2⟩).date = ts.period.start + (p - 1) * (m : Int) := by
  simp only [seriesRows] at h
  cases hm : resMins ts.period.resolution with
  | none => rw [hm] at h; exact absurd h (by simp)
  | some m =>
    rw [hm] at h
    simp only [Option.some_bind] at h
    obtain ⟨hlen, hget⟩ := mapOrFail_length_get h
    refine ⟨m, rfl, hlen, ?_⟩
    intro i h1 h2
    have := hget i h1 h2
    cases hp : intOfStr (ts.points.get ⟨i, h1⟩).position with
    | none => rw [hp] at this; exact absurd this (by simp)
    | some p =>
      rw [hp] at this
      simp only [Option.map_some', Option.some.injEq] at this
      exact ⟨p, rfl, by rw [← this]⟩

theorem claim4_witness :
    ∃ m, resMins w4ts.period.resolution = some m ∧
      ([ { date := 120, valueStr := "10", resolution := "PT60M", tags := [] }
       , { date := 180, valueStr := "20", resolution := "PT60M", tags := [] } ] :
        List RawRow).length = w4ts.points.length ∧
      ∀ i (h1 : i < w4ts.points.length)
        (h2 : i < ([ { date := 120, valueStr := "10", resolution := "PT60M", tags := [] }
                   , { date := 180, valueStr := "20", resolution := "PT60M", tags := [] } ] :
                    List RawRow).length),
        ∃ p, intOfStr (w4ts.points.get ⟨i, h1⟩).position = some p ∧
          (([ { date := 120, valueStr := "10", resolution := "PT60M", tags := [] }
            , { date := 180, valueStr := "20", resolution := "PT60M", tags := [] } ] :
              List RawRow).get ⟨i, h2⟩).date = w4ts.period.start + (p - 1) * (m : Int) :=
  claim4_position_timestamps [] [] [] w4ts
    [ { date := 120, valueStr := "10", resolution := "PT60M", tags := [] }
    , { date := 180, valueStr := "20", resolution := "PT60M", tags := [] } ]
    (by decide)

/-- C5: a document carrying an in-band `Reason` error yields the
upstream-error outcome with that code and text, never the no-data outcome,
regardless of whether any series nodes are present. -/
theorem claim5_reason_first (rp op : List (String × String)) (doc : Document)
    (c t : String) (h : doc.reason = some (c, t)) :
    get_transp_api rp op doc = .apiError c t ∧
    get_transp_api rp op doc ≠ .noData := by
  simp [get_transp_api, h]

theorem claim5_witness :
    get_transp_api [] [] doc999 = .apiError "999" "No matching data found" ∧
    get_transp_api [] [] doc999 ≠ .noData :=
  claim5_reason_first [] [] doc999 "999" "No matching data found" rfl

/-- C6 counterexample: with the bad-value sibling present the whole document
collapses to the generic failure outcome — no data-format error naming the
series, and the well-formed sibling's row (which the same series alone does
produce) is lost. -/
theorem claim6_counterexample :
    get_transp_api [("documentType", "A69")] [] docBadValue = Outcome.failure ∧
    get_transp_api [("documentType", "A69")] [] docGoodValue =
      Outcome.table
        [ { date := 0, value := 5, resolution := "PT60M",
            tags := [("documentType", "A69")] } ] := by
  constructor
  · decide
  · decide

/-- C6 as amended: when any point's value in any series fails numeric
coercion, extraction fails for the entire document with the generic failure
outcome, so no series (offending or sibling) contributes any rows. -/
theorem claim6_coercion_aborts_document (rp op : List (String × String))
    (doc : Document) (h1 : doc.reason = none) (h2 : doc.series ≠ [])
    (h3 : ∃ ts ∈ doc.series, ∃ pt ∈ ts.points, toNumeric pt.value = none) :
    get_transp_api rp op doc = Outcome.failure := by
  obtain ⟨ts, hts, pt, hpt, hbad⟩ := h3
  simp only [get_transp_api, h1]
  rw [if_neg (by simpa [List.isEmpty_iff] using h2)]
  cases hb : buildRawRows doc (differingElements doc.series) rp op with
  | none => rfl
  | some raws =>
    have hco : coerceRows raws = none := by
      simp only [buildRawRows] at hb
      cases hmo : mapOrFail (seriesRows (differingElements doc.series) rp op)
          doc.series with
      | none => rw [hmo] at hb; exact absurd hb (by simp)
      | some L =>
        rw [hmo] at hb
        simp only [Option.map_some', Option.some.injEq] at hb
        obtain ⟨bs, hbs, hsr⟩ := mapOrFail_mem hmo ts hts
        have hr : ∃ row ∈ bs, row.valueStr = pt.value := by
          simp only [seriesRows] at hsr
          cases hm : resMins ts.period.resolution with
          | none => rw [hm] at hsr; exact absurd hsr (by simp)
          | some m =>
            rw [hm] at hsr
            simp only [Option.some_bind] at hsr
            obtain ⟨row, hrow, hf⟩ := mapOrFail_mem hsr pt hpt
            cases hp : intOfStr pt.position with
            | none => rw [hp] at hf; exact absurd hf (by simp)
            | some p =>
              rw [hp] at hf
              simp only [Option.map_some', Option.some.injEq] at hf
              exact ⟨row, hrow, by rw [← hf]⟩
        obtain ⟨row, hrow, hrv⟩ := hr
        have hrmem : row ∈ raws := by
          rw [← hb]
          exact List.mem_flatten.mpr ⟨bs, hbs, hrow⟩
        apply mapOrFail_eq_none
        refine ⟨row, hrmem, ?_⟩
        rw [hrv, hbad]
        rfl
    simp [hco]

theorem claim6_witness :
    get_transp_api [("documentType", "A69")] [] docBadValue = Outcome.failure :=
  claim6_coercion_aborts_document [("documentType", "A69")] [] docBadValue
    rfl (by decide) (by decide)

/-- C7 counterexample: a document with two 60-minute-only series reconciles
to rows in per-series document order with timestamps 0, 60, 0, 60 — not
sorted ascending. -/
theorem claim7_counterexample :
    get_transp_api [("documentType", "A69")] [] doc60x2 =
      Outcome.table
        [ { date := 0, value := 1, resolution := "PT60M",
            tags := [("psrType", "B16"), ("documentType", "A69")] }
        , { date := 60, value := 2, resolution := "PT60M",
            tags := [("psrType", "B16"), ("documentType", "A69")] }
        , { date := 0, value := 3, resolution := "PT60M",
            tags := [("psrType", "B19"), ("documentType", "A69")] }
        , { date := 60, value := 4, resolution := "PT60M",
            tags := [("psrType", "B19"), ("documentType", "A69")] } ] ∧
    ¬ List.Pairwise (fun a b : Row => a.date ≤ b.date)
        [ { date := 0, value := 1, resolution := "PT60M",
            tags := [("psrType", "B16"), ("documentType", "A69")] }
        , { date := 60, value := 2, resolution := "PT60M",
            tags := [("psrType", "B16"), ("documentType", "A69")] }
        , { date := 0, value := 3, resolution := "PT60M",
            tags := [("psrType", "B19"), ("documentType", "A69")] }
        , { date := 60, value := 4, resolution := "PT60M",
            tags := [("psrType", "B19"), ("documentType", "A69")] } ] := by
  constructor
  · decide
  · decide

/-- C7 as amended: when the input contains 15-minute rows (so the priority
merge with its date sort runs), the reconciled output is sorted by timestamp
ascending; with only 60-minute rows the output keeps document order, which
need not be sorted. -/
theorem claim7_sorted_with_fifteen (rows : List Row)
    (h : rows.filter (fun r => r.resolution = "PT15M") ≠ []) :
    List.Pairwise (fun a b : Row => a.date ≤ b.date) (reconcile rows) := by
  rcases reconcile_cases rows with ⟨h0, -⟩ | ⟨-, hcase⟩
  · exact absurd h0 h
  · rw [hcase]
    apply List.Pairwise.filter
    simp only [mergeNative]
    rw [List.pairwise_map]
    have hpair : (List.insertionSort rowLe
        ((rows.filter (fun r => r.resolution = "PT60M")).map (fun r => (r, 1)) ++
          (aggregate15 (rows.filter (fun r => r.resolution = "PT15M"))).map
            (fun r => (r, 2)))).Pairwise rowLe :=
      List.sorted_insertionSort rowLe _
    have hd := hpair.sublist
      (dedupBy_sublist (fun rp => (rp.1.date, rp.1.tags)) _ [])
    exact hd.imp (fun hab => by
      rcases hab with hlt | ⟨heq, -⟩
      · exact le_of_lt hlt
      · exact le_of_eq heq)

theorem claim7_witness :
    ([ ({ date := 0, value := 2, resolution := "PT15M", tags := [] } : Row)
     ].filter (fun r => r.resolution = "PT15M") ≠ []) ∧
    List.Pairwise (fun a b : Row => a.date ≤ b.date)
      (reconcile [ { date := 0, value := 2, resolution := "PT15M", tags := [] } ]) :=
  ⟨by decide,
    claim7_sorted_with_fifteen
      [ { date := 0, value := 2, resolution := "PT15M", tags := [] } ] (by decide)⟩

/-- C8 counterexample: a source with no metadata columns but two distinct
resolution values gets each row's own resolution value as its description,
not the literal "Value" the claim requires for metadata-free sources. -/
theorem claim8_counterexample :
    (processOne []
      [ { date := 0, value := 5, resolution := "PT60M", tags := [] }
      , { date := 60, value := 8, resolution := "PT60M_aggregated", tags := [] } ]).map
        (fun lr => lr.description) = ["PT60M", "PT60M_aggregated"] ∧
    ("PT60M" : String) ≠ "Value" := by
  constructor
  · decide
  · decide

/-- C8 as amended: each row's description is the join (in column order) of
its translated metadata values excluding resolution, with the resolution
value appended when the source holds more than one distinct resolution;
when the source has no metadata columns AND at most one distinct resolution
the description is the literal "Value", but with no metadata columns and
several resolutions it is the row's resolution value itself. -/
theorem claim8_description (dics : List (String × List (String × String)))
    (df : List Row) (hres : "resolution" ∉ tagCols df) :
    (processOne dics df).map (fun lr => lr.description) =
      df.map (fun r =>
        let vals := (tagCols df).map (fun c =>
          ((r.tags.find? (fun e => e.1 = c)).map
            (fun e => translate dics e.1 e.2)).getD "")
        if 1 < ((df.map (fun r => r.resolution)).dedup).length then
          String.intercalate " - " (vals ++ [r.resolution])
        else if (tagCols df).isEmpty then "Value"
        else String.intercalate " - " vals) := by
  have htc : tagCols (df.map (translateRow dics)) = tagCols df := by
    cases df with
    | nil => rfl
    | cons r t => simp [tagCols, translateRow, List.map_map]
  have hresol : (df.map (translateRow dics)).map (fun r => r.resolution) =
      df.map (fun r => r.resolution) := by
    rw [List.map_map]
    apply List.map_congr_left
    intro r _
    rfl
  simp only [processOne, htc, hresol]
  rw [List.map_map, List.map_map]
  apply List.map_congr_left
  intro r hr
  simp only [Function.comp_apply]
  by_cases hcond : 1 < ((df.map (fun r => r.resolution)).dedup).length
  · simp only [hcond, if_true]
    rw [if_neg (by simp [List.isEmpty_iff])]
    congr 1
    rw [List.map_append]
    congr 1
    · apply List.map_congr_left
      intro c hc
      have hcr : ¬ (c = "resolution") := fun h => hres (h ▸ hc)
      rw [if_neg hcr]
      simp only [translateRow, List.find?_map]
      have hpred : ((fun e : String × String => decide (e.1 = c)) ∘
          fun c' : String × String => (c'.1, translate dics c'.1 c'.2)) =
          (fun e : String × String => decide (e.1 = c)) := rfl
      rw [hpred]
      cases hfq : r.tags.find? (fun e => e.1 = c) with
      | none => rfl
      | some e => rfl
  · simp only [hcond, if_false]
    by_cases hemp : (tagCols df).isEmpty
    · simp only [hemp, if_true]
    · rw [if_neg (by simpa using hemp)]
      simp only [hemp, Bool.false_eq_true, if_false]
      congr 1
      apply List.map_congr_left
      intro c hc
      have hcr : ¬ (c = "resolution") := fun h => hres (h ▸ hc)
      rw [if_neg hcr]
      simp only [translateRow, List.find?_map]
      have hpred : ((fun e : String × String => decide (e.1 = c)) ∘
          fun c' : String × String => (c'.1, translate dics c'.1 c'.2)) =
          (fun e : String × String => decide (e.1 = c)) := rfl
      rw [hpred]
      cases hfq : r.tags.find? (fun e => e.1 = c) with
      | none => rfl
      | some e => rfl

theorem claim8_witness :
    "resolution" ∉ tagCols w8df ∧
    (processOne [] w8df).map (fun lr => lr.description) =
      w8df.map (fun r =>
        let vals := (tagCols w8df).map (fun c =>
          ((r.tags.find? (fun e => e.1 = c)).map
            (fun e => translate [] e.1 e.2)).getD "")
        if 1 < ((w8df.map (fun r => r.resolution)).dedup).length then
          String.intercalate " - " (vals ++ [r.resolution])
        else if (tagCols w8df).isEmpty then "Value"
        else String.intercalate " - " vals) :=
  ⟨by decide, claim8_description [] w8df (by decide)⟩

/-- Every merged row comes from the native side or the aggregated side. -/
theorem mergeNative_mem (df60 df15h : List Row) (r : Row)
    (h : r ∈ mergeNative df60 df15h) : r ∈ df60 ∨ r ∈ df15h := by
  simp only [mergeNative] at h
  obtain ⟨x, hx, hxe⟩ := List.mem_map.mp h
  have hxs : x ∈ List.insertionSort rowLe
      (df60.map (fun r => (r, 1)) ++ df15h.map (fun r => (r, 2))) :=
    (dedupBy_sublist _ _ []).mem hx
  have hxc := (List.perm_insertionSort rowLe _).subset hxs
  rcases List.mem_append.mp hxc with h1 | h2
  · obtain ⟨r', hr', he⟩ := List.mem_map.mp h1
    left
    rw [← hxe, ← he]
    exact hr'
  · obtain ⟨r', hr', he⟩ := List.mem_map.mp h2
    right
    rw [← hxe, ← he]
    exact hr'

/-- Every aggregated row carries the aggregated resolution tag. -/
theorem aggregate15_resolution (l : List Row) (r : Row) (h : r ∈ aggregate15 l) :
    r.resolution = "PT60M_aggregated" := by
  simp only [aggregate15] at h
  obtain ⟨k, -, he⟩ := List.mem_map.mp h
  rw [← he]

/-- C9: rows whose resolution is neither "PT15M" nor "PT60M" are silently
dropped by the reconciler: every output row is native or aggregated, and
deleting the foreign-resolution rows from the input leaves the output
unchanged (no error outcome is ever produced for them). -/
theorem claim9_foreign_resolutions_dropped (rows : List Row) :
    (∀ r ∈ reconcile rows,
      r.resolution = "PT60M" ∨ r.resolution = "PT60M_aggregated") ∧
    reconcile (rows.filter
      (fun r => r.resolution = "PT15M" ∨ r.resolution = "PT60M")) =
      reconcile rows := by
  constructor
  · intro r hr
    rcases reconcile_cases rows with ⟨-, hcase⟩ | ⟨-, hcase⟩ <;> rw [hcase] at hr
    · left
      have := (List.mem_filter.mp (List.mem_filter.mp hr).1).2
      simpa using this
    · have hm := (List.mem_filter.mp hr).1
      rcases mergeNative_mem _ _ r hm with h60 | hagg
      · left
        have := (List.mem_filter.mp h60).2
        simpa using this
      · right
        exact aggregate15_resolution _ r hagg
  · have h15 : (rows.filter
        (fun r => r.resolution = "PT15M" ∨ r.resolution = "PT60M")).filter
          (fun r => r.resolution = "PT15M") =
        rows.filter (fun r => r.resolution = "PT15M") := by
      rw [List.filter_filter]
      apply List.filter_congr
      intro r _
      by_cases h : r.resolution = "PT15M" <;> simp [h]
    have h60 : (rows.filter
        (fun r => r.resolution = "PT15M" ∨ r.resolution = "PT60M")).filter
          (fun r => r.resolution = "PT60M") =
        rows.filter (fun r => r.resolution = "PT60M") := by
      rw [List.filter_filter]
      apply List.filter_congr
      intro r _
      by_cases h : r.resolution = "PT60M" <;> simp [h]
    simp only [reconcile, h15, h60]

theorem claim9_witness :
    (∀ r ∈ reconcile w9rows,
      r.resolution = "PT60M" ∨ r.resolution = "PT60M_aggregated") ∧
    reconcile (w9rows.filter
      (fun r => r.resolution = "PT15M" ∨ r.resolution = "PT60M")) =
      reconcile w9rows :=
  claim9_foreign_resolutions_dropped w9rows

/-- C10: the merger skips absent (None) and empty inputs without error —
removing such an entry does not change the output — and when every entry is
absent or empty it returns the empty table. -/
theorem claim10_skip_absent_empty :
    (∀ (dics : List (String × List (String × String))) (tz : Int → Int)
       (l₁ l₂ : List (Option (List Row))) (x : Option (List Row)),
       x = none ∨ x = some [] →
       process dics tz (l₁ ++ x :: l₂) = process dics tz (l₁ ++ l₂)) ∧
    (∀ (dics : List (String × List (String × String))) (tz : Int → Int)
       (dfl : List (Option (List Row))),
       (∀ df ∈ dfl, df = none ∨ df = some []) →
       process dics tz dfl = []) := by
  constructor
  · intro dics tz l₁ l₂ x hx
    rcases hx with rfl | rfl <;>
      simp [process, List.filterMap_append, List.filterMap_cons]
  · intro dics tz dfl h
    have hfm : dfl.filterMap (fun odf =>
        match odf with
        | none => none
        | some df => if df.isEmpty then none else some (processOne dics df)) = [] := by
      apply List.filterMap_eq_nil_iff.mpr
      intro a ha
      rcases h a ha with rfl | rfl
      · rfl
      · rfl
    simp only [process, hfm]
    rfl

theorem claim10_witness :
    process [] (fun t => t) [none, some []] = [] :=
  claim10_skip_absent_empty.2 [] (fun t => t) [none, some []] (by decide)

end Transp
